import Mathlib

/-!
Verification of the RAGAS evaluation microservice (`src/ragas-service/app.py`)
against its natural-language specification.

The service is a thin orchestration layer: it validates requests, builds the
external evaluation library's dataset objects, invokes the library's blocking
`evaluate` call, and shapes the tabular result into JSON-friendly mappings
while scrubbing non-finite floats.  The external library call itself is
abstracted as an oracle parameter (`EvalOracle`); everything this repository's
code does around it is embedded below, definition by definition, following the
structure of `app.py`.

Python conventions embedded explicitly:
  - dicts are association lists with Python assignment semantics
    (update-in-place when the key exists, append otherwise);
  - string truthiness (`if s:`) is the non-emptiness test;
  - `float` values distinguish finite values (modelled as rationals) from
    NaN and the two infinities.
-/

set_option autoImplicit false

namespace RagasService

/-- A Python float as produced by the scoring library: a finite value
(modelled as a rational) or one of the non-finite IEEE values. -/
inductive PyFloat where
  | finite (q : ℚ)
  | nan
  | inf
  | ninf
  deriving DecidableEq

/-- A Python value appearing in score records: `None`, `int`, `float`
or `str`. -/
inductive PyVal where
  | none
  | int (n : Int)
  | float (f : PyFloat)
  | str (s : String)
  deriving DecidableEq

/-- Corresponds to `math.isnan(value) or math.isinf(value)`. -/
def PyFloat.isNanOrInf : PyFloat → Bool
  | .finite _ => false
  | .nan => true
  | .inf => true
  | .ninf => true

/-- Corresponds to `isinstance(v, (int, float))`. -/
def PyVal.isNumeric : PyVal → Bool
  | .int _ => true
  | .float _ => true
  | _ => false

/-- Numeric reading of a `PyVal`, as used by Python arithmetic (`sum`, `/`).
In the service this is only ever applied after cleaning, so the non-finite
and non-numeric cases are unreachable there; they default to 0. -/
def PyVal.toRat : PyVal → ℚ
  | .int n => (n : ℚ)
  | .float (.finite q) => q
  | _ => 0

/-- Embeds `_clean_float`: `None` stays `None`, a NaN/Inf float becomes
`None`, and any other value is returned unchanged. -/
def clean_float (v : PyVal) : PyVal :=
  match v with
  | .none => .none
  | .float f => if f.isNanOrInf then .none else .float f
  | v => v

/-- Embeds `_clean_dict`: apply `clean_float` to `int`/`float` values and
keep every other value unchanged. -/
def clean_dict (d : List (String × PyVal)) : List (String × PyVal) :=
  d.map (fun kv => (kv.1, if kv.2.isNumeric then clean_float kv.2 else kv.2))

/-- Environment-derived configuration, read once at process start. -/
structure Config where
  LLM_PROVIDER : String
  OLLAMA_BASE_URL : String
  OLLAMA_MODEL : String
  OPENAI_API_KEY : String
  deriving DecidableEq

/-- The two LLM client variants the service can construct. -/
inductive LLM where
  | chatOpenAI (model : String) (temperature : ℚ) (api_key : String)
  | chatOllama (model : String) (base_url : String) (temperature : ℚ)
  deriving DecidableEq

/-- Whether an LLM value is the hosted-API (`ChatOpenAI`) variant. -/
def LLM.isChatOpenAI : LLM → Bool
  | .chatOpenAI _ _ _ => true
  | _ => false

/-- Embeds `get_llm`.  The Python guard is
`if LLM_PROVIDER == "openai" and OPENAI_API_KEY:`; string truthiness makes
the key test a non-emptiness test. -/
def get_llm (c : Config) : LLM :=
  if c.LLM_PROVIDER = "openai" ∧ c.OPENAI_API_KEY ≠ "" then
    LLM.chatOpenAI "gpt-4o-mini" 0 c.OPENAI_API_KEY
  else
    LLM.chatOllama c.OLLAMA_MODEL c.OLLAMA_BASE_URL 0

/-- Keys of the `AVAILABLE_METRICS` dict, in insertion order. -/
def AVAILABLE_METRICS : List String :=
  ["faithfulness", "answer_relevancy", "context_precision", "context_recall"]

/-- A RAGAS metric instance: a catalog class instantiated with the chosen
LLM (`metric_class(llm=llm)`). -/
structure MetricInstance where
  name : String
  llm : LLM
  deriving DecidableEq

/-- Embeds `get_metrics`: known metric names become instances bound to the
LLM, unknown names are skipped (the source only logs a warning). -/
def get_metrics (metric_names : List String) (llm : LLM) : List MetricInstance :=
  match metric_names with
  | [] => []
  | name :: rest =>
    if AVAILABLE_METRICS.contains name then
      { name := name, llm := llm } :: get_metrics rest llm
    else
      get_metrics rest llm

/-- The per-sample dict built by the endpoints from the validated request. -/
structure SampleDict where
  question : String
  answer : String
  contexts : List String
  ground_truth : Option String
  deriving DecidableEq

/-- The ragas `SingleTurnSample` record as populated by
`_run_evaluation_sync`. -/
structure SingleTurnSample where
  user_input : String
  response : String
  retrieved_contexts : List String
  reference : Option String
  deriving DecidableEq

/-- Construction of a `SingleTurnSample` from a sample dict, as in
`_run_evaluation_sync`: `reference` is assigned only under
`if s.get("ground_truth"):`, i.e. only when the ground truth is a truthy
(non-empty) string; otherwise the field stays unset. -/
def toSingleTurn (s : SampleDict) : SingleTurnSample :=
  { user_input := s.question
    response := s.answer
    retrieved_contexts := s.contexts
    reference :=
      match s.ground_truth with
      | Option.some g => if g = "" then Option.none else Option.some g
      | Option.none => Option.none }

/-- Abstraction of the pandas dataframe obtained from the evaluation result
(`result.to_pandas()`): column names, row records (`to_dict('records')`),
and the per-column mean used by the aggregate loop.  The ragas and pandas
internals are external to this repository. -/
structure ResultTable where
  columns : List String
  records : List (List (String × PyVal))
  colMean : String → PyFloat

/-- Abstraction of the external blocking `ragas.evaluate` call followed by
`to_pandas`: from the dataset samples and metric instances to a result
table. -/
def EvalOracle : Type :=
  List SingleTurnSample → List MetricInstance → ResultTable

/-- Python dict lookup on an association list (first matching key). -/
def dictGet : List (String × PyVal) → String → Option PyVal
  | [], _ => Option.none
  | kv :: rest, k => if kv.1 = k then Option.some kv.2 else dictGet rest k

/-- Python dict assignment `d[k] = v`: update in place when the key exists,
otherwise append the new entry. -/
def dictSet (d : List (String × PyVal)) (k : String) (v : PyVal) :
    List (String × PyVal) :=
  if d.any (fun kv => kv.1 == k) then
    d.map (fun kv => if kv.1 = k then (k, v) else kv)
  else
    d ++ [(k, v)]

/-- One iteration of the aggregate loop of `_run_evaluation_sync`: when the
requested metric name is a column of the result table, set
`aggregate[name] = _clean_float(float(result_df[name].mean()))`; otherwise
leave the aggregate unchanged. -/
def agg_step (tbl : ResultTable) (agg : List (String × PyVal))
    (name : String) : List (String × PyVal) :=
  if tbl.columns.contains name then
    dictSet agg name (clean_float (PyVal.float (tbl.colMean name)))
  else agg

/-- Embeds the aggregate loop of `_run_evaluation_sync` over the requested
metric names, starting from the empty dict. -/
def build_aggregate (tbl : ResultTable) (metric_names : List String) :
    List (String × PyVal) :=
  metric_names.foldl (agg_step tbl) []

/-- Successful output of `_run_evaluation_sync`.  The wall-clock timing
field is not modelled. -/
structure RunResult where
  scores : List (List (String × PyVal))
  aggregate : List (String × PyVal)
  deriving DecidableEq

/-- Embeds `_run_evaluation_sync`: build the single-turn samples and the
metric instances, raise `ValueError("No valid metrics specified")` when no
metric instance remains, otherwise call the external evaluation and
clean/aggregate its result table. -/
def run_evaluation_sync (oracle : EvalOracle) (c : Config)
    (samples : List SampleDict) (metric_names : List String) :
    Except String RunResult :=
  let llm := get_llm c
  let eval_samples := samples.map toSingleTurn
  let metrics := get_metrics metric_names llm
  if metrics.isEmpty then
    Except.error "No valid metrics specified"
  else
    let tbl := oracle eval_samples metrics
    let scores := tbl.records.map clean_dict
    let aggregate := build_aggregate tbl metric_names
    Except.ok { scores := scores, aggregate := aggregate }

/-- HTTP outcome of an endpoint: a 200 body, or an `HTTPException` with a
status code and a detail string. -/
inductive HTTPResponse (α : Type) where
  | ok (body : α)
  | error (status : Nat) (detail : String)
  deriving DecidableEq

/-- Response body of `POST /evaluate` (timing and timestamp fields are not
modelled). -/
structure EvaluationResult where
  metrics : List (String × PyVal)
  overall_score : Option ℚ
  deriving DecidableEq

/-- The single-evaluation request after pydantic validation, with the
`metrics` default already applied. -/
structure SingleEvaluationRequest where
  question : String
  answer : String
  contexts : List String
  ground_truth : Option String
  metrics : List String
  deriving DecidableEq

/-- Embeds the `POST /evaluate` handler `evaluate_single`: run the
evaluation on the one-sample list, take the first cleaned record, and
average the values at requested keys that are numeric. -/
def evaluate_single (oracle : EvalOracle) (c : Config)
    (req : SingleEvaluationRequest) : HTTPResponse EvaluationResult :=
  let sample : SampleDict :=
    { question := req.question
      answer := req.answer
      contexts := req.contexts
      ground_truth := req.ground_truth }
  match run_evaluation_sync oracle c [sample] req.metrics with
  | Except.error e => HTTPResponse.error 500 e
  | Except.ok result =>
    let scores :=
      match result.scores with
      | [] => []
      | s :: _ => s
    let valid_scores :=
      (scores.filter
        (fun kv => req.metrics.contains kv.1 && kv.2.isNumeric)).map
        (fun kv => kv.2.toRat)
    let overall :=
      if valid_scores.isEmpty then Option.none
      else Option.some (valid_scores.sum / (valid_scores.length : ℚ))
    HTTPResponse.ok { metrics := scores, overall_score := overall }

/-- The batch request after pydantic validation, with the `metrics` default
already applied. -/
structure BatchEvaluationRequest where
  samples : List SampleDict
  metrics : List String
  deriving DecidableEq

/-- Response body of `POST /evaluate/batch` (timing and timestamp fields
are not modelled). -/
structure BatchEvaluationResult where
  results : List (List (String × PyVal))
  aggregate : List (String × PyVal)
  total_samples : Nat
  deriving DecidableEq

/-- The overall-aggregate computation of `evaluate_batch`: the mean of the
non-None aggregate values, `None` when there is no such value. -/
def batch_overall (aggregate : List (String × PyVal)) : PyVal :=
  let valid_values := (aggregate.map Prod.snd).filter (fun v => v != PyVal.none)
  if valid_values.isEmpty then PyVal.none
  else
    PyVal.float (PyFloat.finite
      ((valid_values.map PyVal.toRat).sum / (valid_values.length : ℚ)))

/-- Embeds the `POST /evaluate/batch` handler `evaluate_batch`.  The boolean
component records whether the evaluation invoker was called. -/
def evaluate_batch (oracle : EvalOracle) (c : Config)
    (req : BatchEvaluationRequest) :
    HTTPResponse BatchEvaluationResult × Bool :=
  if req.samples.length > 100 then
    (HTTPResponse.error 400 "Maximum 100 samples per batch", false)
  else if req.samples.length = 0 then
    (HTTPResponse.error 400 "At least one sample required", false)
  else
    match run_evaluation_sync oracle c req.samples req.metrics with
    | Except.error e => (HTTPResponse.error 500 e, true)
    | Except.ok result =>
      let aggregate :=
        dictSet result.aggregate "overall" (batch_overall result.aggregate)
      (HTTPResponse.ok
        { results := result.scores
          aggregate := aggregate
          total_samples := req.samples.length }, true)

/-- Response body of `GET /health`. -/
structure HealthResponse where
  status : String
  llm_provider : String
  llm_model : String
  available_metrics : List String
  deriving DecidableEq

/-- Embeds the `GET /health` handler: always a 200 response whose content
depends only on the static configuration. -/
def health_check (c : Config) : Nat × HealthResponse :=
  (200,
    { status := "healthy"
      llm_provider := c.LLM_PROVIDER
      llm_model :=
        if c.LLM_PROVIDER = "ollama" then c.OLLAMA_MODEL else "gpt-4o-mini"
      available_metrics := AVAILABLE_METRICS })

/-! Spec-side definitions.  These follow the specification's words, to be
compared with the code-derived definitions above. -/

/-- Finite numeric reading of a returned value: `some q` for an int or a
finite float, `none` for an absent (`None`), non-finite or non-numeric
value. -/
def asFiniteNum : PyVal → Option ℚ
  | .int n => Option.some (n : ℚ)
  | .float (.finite q) => Option.some q
  | _ => Option.none

/-- Modelled from the spec: the overall score of a single evaluation is the
arithmetic mean of the returned metric values restricted to the requested
metric set, ignoring absent values; absent when all are absent. -/
def specSingleOverall (scores : List (String × PyVal))
    (requested : List String) : Option ℚ :=
  let vs := (scores.filter (fun kv => requested.contains kv.1)).filterMap
    (fun kv => asFiniteNum kv.2)
  if vs.isEmpty then Option.none
  else Option.some (vs.sum / (vs.length : ℚ))

/-- Modelled from the spec: the batch overall aggregate is the arithmetic
mean of the non-absent per-metric aggregate means, absent when every
per-metric aggregate is absent. -/
def specBatchOverall (aggregate : List (String × PyVal)) : PyVal :=
  let ms := aggregate.filterMap (fun kv => asFiniteNum kv.2)
  if ms.isEmpty then PyVal.none
  else PyVal.float (PyFloat.finite (ms.sum / (ms.length : ℚ)))

/-- Shape of the values stored by the aggregate loop: absent or a finite
float. -/
def IsCleanAgg (v : PyVal) : Prop :=
  v = PyVal.none ∨ ∃ q, v = PyVal.float (PyFloat.finite q)

/-! Concrete fixtures used by the witness theorems. -/

/-- A concrete configuration (the source defaults). -/
def testConfig : Config :=
  { LLM_PROVIDER := "ollama"
    OLLAMA_BASE_URL := "http://localhost:11434"
    OLLAMA_MODEL := "llama3.2"
    OPENAI_API_KEY := "" }

/-- A concrete sample. -/
def testSample : SampleDict :=
  { question := "q", answer := "a", contexts := ["c"], ground_truth := Option.none }

/-- A concrete result table with one row: an echoed input column and one
metric column. -/
def testTable : ResultTable :=
  { columns := ["user_input", "faithfulness"]
    records := [[("user_input", PyVal.str "q"),
                 ("faithfulness", PyVal.float (PyFloat.finite (1/2)))]]
    colMean := fun _ => PyFloat.finite (1/2) }

/-- A concrete evaluation oracle returning `testTable`. -/
def testOracle : EvalOracle := fun _ _ => testTable

/-- A concrete single-evaluation request. -/
def testSingleReq : SingleEvaluationRequest :=
  { question := "q", answer := "a", contexts := ["c"]
    ground_truth := Option.none, metrics := ["faithfulness"] }

/-- A concrete batch request with one sample. -/
def testBatchReq : BatchEvaluationRequest :=
  { samples := [testSample], metrics := ["faithfulness"] }

/-- Expected `/evaluate` body for `testSingleReq` against `testOracle`. -/
def c1Body : EvaluationResult :=
  { metrics := [("user_input", PyVal.str "q"),
                ("faithfulness", PyVal.float (PyFloat.finite (1/2)))]
    overall_score := Option.some (1/2) }

/-- Expected `_run_evaluation_sync` output for `testBatchReq` against
`testOracle`. -/
def c2Run : RunResult :=
  { scores := [[("user_input", PyVal.str "q"),
                ("faithfulness", PyVal.float (PyFloat.finite (1/2)))]]
    aggregate := [("faithfulness", PyVal.float (PyFloat.finite (1/2)))] }

/-- Expected `/evaluate/batch` body for `testBatchReq` against
`testOracle`. -/
def c2Body : BatchEvaluationResult :=
  { results := [[("user_input", PyVal.str "q"),
                 ("faithfulness", PyVal.float (PyFloat.finite (1/2)))]]
    aggregate := [("faithfulness", PyVal.float (PyFloat.finite (1/2))),
                  ("overall", PyVal.float (PyFloat.finite (1/2)))]
    total_samples := 1 }

/-! Helper lemmas about the dict operations. -/

theorem dictGet_dictSet_self (d : List (String × PyVal)) (k : String) (v : PyVal) :
    dictGet (dictSet d k v) k = Option.some v := by
  unfold dictSet
  by_cases h : d.any (fun kv => kv.1 == k)
  · simp only [h, if_true]
    induction d with
    | nil => simp at h
    | cons kv rest ih =>
      by_cases hk : kv.1 = k
      · simp [dictGet, hk]
      · have hrest : rest.any (fun kv => kv.1 == k) = true := by
          simp only [List.any_cons, Bool.or_eq_true, beq_iff_eq] at h
          rcases h with h | h
          · exact absurd h hk
          · simpa using h
        simpa [dictGet, hk] using ih hrest
  · simp only [h, if_false]
    induction d with
    | nil => simp [dictGet]
    | cons kv rest ih =>
      have hk : ¬ kv.1 = k := by
        intro e
        exact h (by simp [List.any_cons, e])
      have hrest : ¬ rest.any (fun kv => kv.1 == k) = true := by
        intro e
        exact h (by simp [List.any_cons, e])
      simpa [dictGet, hk] using ih hrest

theorem dictGet_map_ne (d : List (String × PyVal)) (k k' : String) (v : PyVal)
    (hne : k ≠ k') :
    dictGet (d.map (fun kv => if kv.1 = k then (k, v) else kv)) k'
      = dictGet d k' := by
  induction d with
  | nil => rfl
  | cons kv rest ih =>
    by_cases hkk : kv.1 = k
    · simp [dictGet, hkk, hne, ih]
    · simp [dictGet, hkk, ih]

theorem dictGet_append_ne (d : List (String × PyVal)) (k k' : String) (v : PyVal)
    (hne : k ≠ k') : dictGet (d ++ [(k, v)]) k' = dictGet d k' := by
  induction d with
  | nil => simp [dictGet, hne]
  | cons kv rest ih =>
    by_cases hk : kv.1 = k'
    · simp [dictGet, hk]
    · simp [dictGet, hk, ih]

theorem dictGet_dictSet_ne (d : List (String × PyVal)) (k k' : String) (v : PyVal)
    (hne : k ≠ k') : dictGet (dictSet d k v) k' = dictGet d k' := by
  unfold dictSet
  by_cases h : d.any (fun kv => kv.1 == k)
  · simp only [h, if_true]
    exact dictGet_map_ne d k k' v hne
  · simp only [h, if_false]
    exact dictGet_append_ne d k k' v hne

theorem mem_dictSet (d : List (String × PyVal)) (k : String) (v : PyVal)
    (kv : String × PyVal) (hkv : kv ∈ dictSet d k v) : kv ∈ d ∨ kv = (k, v) := by
  unfold dictSet at hkv
  by_cases h : d.any (fun kv => kv.1 == k)
  · simp only [h, if_true] at hkv
    rcases List.mem_map.mp hkv with ⟨kv', hkv', heq⟩
    by_cases he : kv'.1 = k
    · right
      simp only [he, if_true] at heq
      exact heq.symm
    · left
      simp only [he, if_false] at heq
      exact heq ▸ hkv'
  · simp only [h, if_false] at hkv
    rcases List.mem_append.mp hkv with hm | hm
    · exact Or.inl hm
    · exact Or.inr (by simpa using hm)

/-! Helper lemmas about cleaning and the aggregate loop. -/

theorem clean_float_float_clean (f : PyFloat) :
    IsCleanAgg (clean_float (PyVal.float f)) := by
  cases f <;> simp [clean_float, PyFloat.isNanOrInf, IsCleanAgg]

theorem agg_step_clean (tbl : ResultTable) (acc : List (String × PyVal))
    (n : String) (hacc : ∀ kv ∈ acc, IsCleanAgg kv.2) :
    ∀ kv ∈ agg_step tbl acc n, IsCleanAgg kv.2 := by
  intro kv hkv
  unfold agg_step at hkv
  by_cases hc : tbl.columns.contains n = true
  · rw [if_pos hc] at hkv
    rcases mem_dictSet _ _ _ _ hkv with hm | hm
    · exact hacc _ hm
    · rw [hm]
      exact clean_float_float_clean _
  · rw [if_neg hc] at hkv
    exact hacc _ hkv

theorem build_aggregate_loop_clean (tbl : ResultTable) (names : List String)
    (acc : List (String × PyVal)) (hacc : ∀ kv ∈ acc, IsCleanAgg kv.2) :
    ∀ kv ∈ names.foldl (agg_step tbl) acc, IsCleanAgg kv.2 := by
  induction names generalizing acc with
  | nil => simpa using hacc
  | cons n rest ih =>
    intro kv hkv
    rw [List.foldl_cons] at hkv
    exact ih _ (agg_step_clean tbl acc n hacc) kv hkv

theorem build_aggregate_clean (tbl : ResultTable) (names : List String) :
    ∀ kv ∈ build_aggregate tbl names, IsCleanAgg kv.2 := by
  unfold build_aggregate
  exact build_aggregate_loop_clean tbl names [] (by intro kv h; cases h)

/-- The numeric list read off by `evaluate_batch` (filter out `None`, then
read numerically) agrees with the spec-side reading (`filterMap asFiniteNum`)
on aggregates whose values are absent or finite floats. -/
theorem valid_values_eq_spec (agg : List (String × PyVal))
    (h : ∀ kv ∈ agg, IsCleanAgg kv.2) :
    ((agg.map Prod.snd).filter (fun v => v != PyVal.none)).map PyVal.toRat
      = agg.filterMap (fun kv => asFiniteNum kv.2) := by
  induction agg with
  | nil => rfl
  | cons kv rest ih =>
    have hrest := fun kv' hm => h kv' (List.mem_cons_of_mem _ hm)
    rcases h kv (List.mem_cons_self _ _) with hnone | ⟨q, hq⟩
    · simp [List.filter_cons, List.filterMap_cons, hnone, asFiniteNum, ih hrest]
    · simp [List.filter_cons, List.filterMap_cons, hq, asFiniteNum,
        PyVal.toRat, ih hrest]

theorem batch_overall_eq_spec (agg : List (String × PyVal))
    (h : ∀ kv ∈ agg, IsCleanAgg kv.2) :
    batch_overall agg = specBatchOverall agg := by
  unfold batch_overall specBatchOverall
  rw [← valid_values_eq_spec agg h]
  cases hval : (agg.map Prod.snd).filter (fun v => v != PyVal.none) with
  | nil => simp
  | cons v vs => simp [List.isEmpty]

/-! Helper lemmas about the metric factory and the evaluation invoker. -/

theorem get_metrics_names_known (names : List String) (llm : LLM) :
    ∀ inst ∈ get_metrics names llm,
      AVAILABLE_METRICS.contains inst.name = true := by
  induction names with
  | nil =>
    intro inst h
    cases h
  | cons n rest ih =>
    intro inst h
    unfold get_metrics at h
    by_cases hc : AVAILABLE_METRICS.contains n = true
    · rw [if_pos hc] at h
      rcases List.mem_cons.mp h with he | hm
      · rw [he]
        exact hc
      · exact ih inst hm
    · rw [if_neg hc] at h
      exact ih inst h

theorem get_metrics_eq_nil (names : List String) (llm : LLM)
    (h : ∀ n ∈ names, AVAILABLE_METRICS.contains n = false) :
    get_metrics names llm = [] := by
  induction names with
  | nil => rfl
  | cons n rest ih =>
    have hn := h n (List.mem_cons_self _ _)
    unfold get_metrics
    rw [if_neg (fun hc => Bool.noConfusion (hn ▸ hc))]
    exact ih (fun m hm => h m (List.mem_cons_of_mem _ hm))

/-- Characterization of a successful run of the evaluation invoker. -/
theorem run_evaluation_sync_ok_iff (oracle : EvalOracle) (c : Config)
    (samples : List SampleDict) (names : List String) (r : RunResult) :
    run_evaluation_sync oracle c samples names = Except.ok r ↔
      ((get_metrics names (get_llm c)).isEmpty = false ∧
        r = { scores := (oracle (samples.map toSingleTurn)
                (get_metrics names (get_llm c))).records.map clean_dict
              aggregate := build_aggregate
                (oracle (samples.map toSingleTurn)
                  (get_metrics names (get_llm c))) names }) := by
  unfold run_evaluation_sync
  by_cases hm : (get_metrics names (get_llm c)).isEmpty = true
  · simp [hm]
  · have hm' : (get_metrics names (get_llm c)).isEmpty = false := by
      cases hb : (get_metrics names (get_llm c)).isEmpty
      · rfl
      · exact absurd hb hm
    simp only [hm', Bool.false_eq_true, if_false, Except.ok.injEq, true_and]
    exact ⟨fun h => h.symm, fun h => h.symm⟩

/-- Characterization of a failing run of the evaluation invoker. -/
theorem run_evaluation_sync_error_of_no_metrics (oracle : EvalOracle)
    (c : Config) (samples : List SampleDict) (names : List String)
    (h : ∀ n ∈ names, AVAILABLE_METRICS.contains n = false) :
    run_evaluation_sync oracle c samples names
      = Except.error "No valid metrics specified" := by
  simp only [run_evaluation_sync]
  rw [get_metrics_eq_nil names _ h]
  rfl

/-- The numeric list averaged by `evaluate_single` (restrict to requested
keys, keep numeric values, read numerically) agrees with the spec-side
reading (restrict to requested keys, drop absent values) whenever the
values at requested keys are absent or finite numbers. -/
theorem restricted_values_eq (scores : List (String × PyVal))
    (requested : List String)
    (h : ∀ kv ∈ scores, requested.contains kv.1 = true →
      kv.2 = PyVal.none ∨ (asFiniteNum kv.2).isSome = true) :
    (scores.filter
        (fun kv => requested.contains kv.1 && kv.2.isNumeric)).map
        (fun kv => kv.2.toRat)
      = (scores.filter (fun kv => requested.contains kv.1)).filterMap
        (fun kv => asFiniteNum kv.2) := by
  induction scores with
  | nil => rfl
  | cons kv rest ih =>
    have hrest := fun kv' hm => h kv' (List.mem_cons_of_mem _ hm)
    by_cases hcm : kv.1 ∈ requested
    · have hc : requested.contains kv.1 = true := by simpa using hcm
      rcases h kv (List.mem_cons_self _ _) hc with hnone | hsome
      · simp [List.filter_cons, List.filterMap_cons, hcm, hnone,
          PyVal.isNumeric, asFiniteNum]
        simpa [PyVal.isNumeric, asFiniteNum, PyVal.toRat] using ih hrest
      · rcases kv with ⟨k, v⟩
        cases v with
        | none => simp [asFiniteNum] at hsome
        | int n =>
          simp [List.filter_cons, List.filterMap_cons, hcm, PyVal.isNumeric,
            asFiniteNum, PyVal.toRat]
          simpa [PyVal.isNumeric, asFiniteNum, PyVal.toRat] using ih hrest
        | float f =>
          cases f with
          | finite q =>
            simp [List.filter_cons, List.filterMap_cons, hcm,
              PyVal.isNumeric, asFiniteNum, PyVal.toRat]
            simpa [PyVal.isNumeric, asFiniteNum, PyVal.toRat] using ih hrest
          | nan => simp [asFiniteNum] at hsome
          | inf => simp [asFiniteNum] at hsome
          | ninf => simp [asFiniteNum] at hsome
        | str s => simp [asFiniteNum] at hsome
    · simp [List.filter_cons, hcm]
      simpa [PyVal.isNumeric, asFiniteNum, PyVal.toRat] using ih hrest

/-! Helper lemmas for the aggregate loop with a missing column. -/

theorem agg_step_get_ne (tbl : ResultTable) (acc : List (String × PyVal))
    (n name : String) (hcol : tbl.columns.contains name = false) :
    dictGet (agg_step tbl acc n) name = dictGet acc name := by
  unfold agg_step
  by_cases hc : tbl.columns.contains n = true
  · have hne : n ≠ name := by
      intro e
      rw [e, hcol] at hc
      exact Bool.noConfusion hc
    rw [if_pos hc, dictGet_dictSet_ne _ _ _ _ hne]
  · rw [if_neg hc]

theorem build_aggregate_loop_get_none (tbl : ResultTable) (names : List String)
    (name : String) (hcol : tbl.columns.contains name = false) :
    ∀ acc, dictGet acc name = Option.none →
      dictGet (names.foldl (agg_step tbl) acc) name = Option.none := by
  induction names with
  | nil =>
    intro acc hacc
    simpa using hacc
  | cons n rest ih =>
    intro acc hacc
    rw [List.foldl_cons]
    exact ih _ ((agg_step_get_ne tbl acc n name hcol).trans hacc)

theorem agg_step_skip (tbl : ResultTable) (acc : List (String × PyVal))
    (name : String) (hcol : tbl.columns.contains name = false) :
    agg_step tbl acc name = acc :=
  if_neg (fun hc => Bool.noConfusion (hcol ▸ hc))

theorem build_aggregate_loop_skip (tbl : ResultTable) (names : List String)
    (name : String) (hcol : tbl.columns.contains name = false) :
    ∀ acc, names.foldl (agg_step tbl) acc
      = (names.filter (fun n => n != name)).foldl (agg_step tbl) acc := by
  induction names with
  | nil =>
    intro acc
    rfl
  | cons n rest ih =>
    intro acc
    rw [List.foldl_cons, List.filter_cons]
    by_cases he : n = name
    · have hcoln : tbl.columns.contains n = false := by
        rw [he]
        exact hcol
      have hbf : (n != name) = false := by simp [he]
      rw [agg_step_skip tbl acc n hcoln, hbf]
      simp only [Bool.false_eq_true, if_false]
      exact ih acc
    · have hbt : (n != name) = true := by simp [he]
      rw [hbt]
      simp only [if_true]
      rw [List.foldl_cons]
      exact ih (agg_step tbl acc n)

/-! Claim theorems. -/

/-- C4: every score value that is a non-finite float (NaN or Infinity) is
turned into the explicit absence marker `None` by the cleaning step — never
into 0 — and every other value (finite floats, ints, non-numeric values,
`None` itself) passes through the cleaning step unchanged.  The cleaning
step is a total function, so no error is ever raised. -/
theorem c4_clean_float_absence (v : PyVal) :
    ((∃ f, v = PyVal.float f ∧ PyFloat.isNanOrInf f = true) →
      clean_float v = PyVal.none ∧
      clean_float v ≠ PyVal.float (PyFloat.finite 0) ∧
      clean_float v ≠ PyVal.int 0) ∧
    ((∀ f, v = PyVal.float f → PyFloat.isNanOrInf f = false) →
      clean_float v = v) := by
  constructor
  · rintro ⟨f, rfl, hf⟩
    cases f <;> simp_all [clean_float, PyFloat.isNanOrInf]
  · intro h
    cases v with
    | none => rfl
    | int n => rfl
    | str s => rfl
    | float f =>
      have := h f rfl
      cases f <;> simp_all [clean_float, PyFloat.isNanOrInf]

/-- Witness for C4: a NaN becomes `None`; a finite int passes through. -/
theorem c4_clean_float_absence_witness :
    clean_float (PyVal.float PyFloat.nan) = PyVal.none ∧
    clean_float (PyVal.int 3) = PyVal.int 3 :=
  ⟨((c4_clean_float_absence (PyVal.float PyFloat.nan)).1
      ⟨PyFloat.nan, rfl, rfl⟩).1,
   (c4_clean_float_absence (PyVal.int 3)).2 (fun f h => by cases h)⟩

/-- C7 counterexample: with a supplied but empty ground truth (`Some ""`),
the single-turn record's `reference` field is left unset, so "reference is
set if and only if a ground truth is supplied" fails: the source guard
`if s.get("ground_truth"):` tests Python truthiness, not presence. -/
theorem c7_counterexample :
    ¬ (((toSingleTurn
          { question := "q", answer := "a", contexts := ["c"],
            ground_truth := Option.some "" }).reference).isSome
        ↔ (Option.some "" : Option String).isSome) := by
  simp [toSingleTurn]

/-- C7 (amended): the single-turn record's `reference` field is set if and
only if a non-empty ground truth string is supplied (Python truthiness);
when the ground truth is absent or the empty string, `reference` is left
unset, and when it is a non-empty string `reference` equals it. -/
theorem c7_reference_iff_truthy (s : SampleDict) :
    ((toSingleTurn s).reference = Option.none ↔
      (s.ground_truth = Option.none ∨ s.ground_truth = Option.some "")) ∧
    (∀ g, s.ground_truth = Option.some g → g ≠ "" →
      (toSingleTurn s).reference = Option.some g) := by
  constructor
  · cases hg : s.ground_truth with
    | none => simp [toSingleTurn, hg]
    | some g =>
      by_cases he : g = ""
      · simp [toSingleTurn, hg, he]
      · simp [toSingleTurn, hg, he]
  · intro g hg hne
    simp [toSingleTurn, hg, hne]

/-- Witness for C7 (amended): a non-empty ground truth is copied into
`reference`. -/
theorem c7_reference_iff_truthy_witness :
    (toSingleTurn
      { question := "q", answer := "a", contexts := ["c"],
        ground_truth := Option.some "Paris" }).reference
      = Option.some "Paris" :=
  (c7_reference_iff_truthy _).2 "Paris" rfl (by decide)

/-- C8: the LLM selector returns the hosted-API (`ChatOpenAI`) variant
exactly when the provider flag is `"openai"` and the API key is present
(non-empty); when the provider is `"openai"` but the key is empty it
silently returns the local (`ChatOllama`) variant, raising no error. -/
theorem c8_get_llm_selection (c : Config) :
    ((get_llm c).isChatOpenAI = true ↔
      (c.LLM_PROVIDER = "openai" ∧ c.OPENAI_API_KEY ≠ "")) ∧
    (c.LLM_PROVIDER = "openai" → c.OPENAI_API_KEY = "" →
      get_llm c = LLM.chatOllama c.OLLAMA_MODEL c.OLLAMA_BASE_URL 0) := by
  constructor
  · by_cases h : c.LLM_PROVIDER = "openai" ∧ c.OPENAI_API_KEY ≠ ""
    · simp [get_llm, h, LLM.isChatOpenAI]
    · simp only [get_llm, h, if_false]
      simp [LLM.isChatOpenAI, h]
  · intro h1 h2
    have h : ¬ (c.LLM_PROVIDER = "openai" ∧ c.OPENAI_API_KEY ≠ "") := by
      rintro ⟨-, hk⟩
      exact hk h2
    simp [get_llm, h]

/-- Witness for C8: provider `"openai"` with an empty key falls back to the
local variant. -/
theorem c8_get_llm_selection_witness :
    get_llm
      { LLM_PROVIDER := "openai", OLLAMA_BASE_URL := "http://localhost:11434",
        OLLAMA_MODEL := "llama3.2", OPENAI_API_KEY := "" }
      = LLM.chatOllama "llama3.2" "http://localhost:11434" 0 :=
  (c8_get_llm_selection _).2 rfl rfl

/-- C9: the health endpoint returns HTTP 200 and its `available_metrics`
field is exactly the four fixed metric keys, for every configuration (no
LLM backend is consulted: the model has no backend input at all). -/
theorem c9_health_always_ok (c : Config) :
    (health_check c).1 = 200 ∧
    (health_check c).2.available_metrics
      = ["faithfulness", "answer_relevancy", "context_precision",
         "context_recall"] :=
  ⟨rfl, rfl⟩

/-- C3: a batch request with 0 samples or more than 100 samples is answered
with HTTP 400, and the evaluation invoker is never called (the boolean
component of `evaluate_batch` records invocation). -/
theorem c3_batch_size_rejected (oracle : EvalOracle) (c : Config)
    (req : BatchEvaluationRequest)
    (h : req.samples.length = 0 ∨ req.samples.length > 100) :
    (∃ d, (evaluate_batch oracle c req).1 = HTTPResponse.error 400 d) ∧
    (evaluate_batch oracle c req).2 = false := by
  rcases h with h | h
  · have h100 : ¬ req.samples.length > 100 := by omega
    refine ⟨⟨"At least one sample required", ?_⟩, ?_⟩ <;>
      simp [evaluate_batch, h, h100]
  · refine ⟨⟨"Maximum 100 samples per batch", ?_⟩, ?_⟩ <;>
      simp [evaluate_batch, h]

/-- Witness for C3: the empty batch is rejected with a 400 and no
evaluation happens. -/
theorem c3_batch_size_rejected_witness :
    ((([] : List SampleDict).length = 0 ∨
        ([] : List SampleDict).length > 100) ∧
      (∃ d, (evaluate_batch testOracle testConfig
        { samples := [], metrics := ["faithfulness"] }).1
          = HTTPResponse.error 400 d) ∧
      (evaluate_batch testOracle testConfig
        { samples := [], metrics := ["faithfulness"] }).2 = false) :=
  ⟨Or.inl rfl,
   c3_batch_size_rejected testOracle testConfig
     { samples := [], metrics := ["faithfulness"] } (Or.inl rfl)⟩

/-- Core computation fact behind C1: the code-side average (restrict to
requested keys, keep numeric values) equals the spec-side overall (restrict
to requested keys, drop absent values) when the values at requested keys
are absent or finite numbers. -/
theorem single_overall_core (scores : List (String × PyVal))
    (requested : List String)
    (h : ∀ kv ∈ scores, requested.contains kv.1 = true →
      kv.2 = PyVal.none ∨ (asFiniteNum kv.2).isSome = true) :
    (if ((scores.filter
          (fun kv => requested.contains kv.1 && kv.2.isNumeric)).map
          (fun kv => kv.2.toRat)).isEmpty
      then Option.none
      else Option.some
        (((scores.filter
            (fun kv => requested.contains kv.1 && kv.2.isNumeric)).map
            (fun kv => kv.2.toRat)).sum /
          ((((scores.filter
            (fun kv => requested.contains kv.1 && kv.2.isNumeric)).map
            (fun kv => kv.2.toRat)).length : ℚ))))
      = specSingleOverall scores requested := by
  simp only [specSingleOverall]
  rw [restricted_values_eq scores requested h]

/-- C5: metric identifiers outside the fixed catalog are excluded from
scoring (every instantiated metric carries a catalog name), and when every
supplied identifier is unknown the evaluation fails with
`ValueError("No valid metrics specified")`, surfaced by both evaluation
endpoints as HTTP 500, rather than succeeding with an empty metric set. -/
theorem c5_unknown_metrics_policy (names : List String) :
    (∀ llm : LLM, ∀ inst ∈ get_metrics names llm,
      AVAILABLE_METRICS.contains inst.name = true) ∧
    ((∀ n ∈ names, AVAILABLE_METRICS.contains n = false) →
      (∀ (oracle : EvalOracle) (c : Config) (req : SingleEvaluationRequest),
        req.metrics = names →
        evaluate_single oracle c req
          = HTTPResponse.error 500 "No valid metrics specified") ∧
      (∀ (oracle : EvalOracle) (c : Config) (req : BatchEvaluationRequest),
        req.metrics = names → 1 ≤ req.samples.length →
        req.samples.length ≤ 100 →
        (evaluate_batch oracle c req).1
          = HTTPResponse.error 500 "No valid metrics specified")) := by
  constructor
  · intro llm
    exact get_metrics_names_known names llm
  · intro h
    constructor
    · intro oracle c req hreq
      simp only [evaluate_single]
      rw [hreq, run_evaluation_sync_error_of_no_metrics oracle c _ names h]
    · intro oracle c req hreq h1 h2
      have h100 : ¬ req.samples.length > 100 := by omega
      have h0 : ¬ req.samples.length = 0 := by omega
      simp only [evaluate_batch]
      rw [if_neg h100, if_neg h0, hreq,
        run_evaluation_sync_error_of_no_metrics oracle c _ names h]

/-- Witness for C5: requesting only the unknown metric `"bogus"` yields the
500 error. -/
theorem c5_unknown_metrics_policy_witness :
    (∀ n ∈ ["bogus"], AVAILABLE_METRICS.contains n = false) ∧
    evaluate_single testOracle testConfig
      { question := "q", answer := "a", contexts := ["c"],
        ground_truth := Option.none, metrics := ["bogus"] }
      = HTTPResponse.error 500 "No valid metrics specified" :=
  ⟨by decide,
   ((c5_unknown_metrics_policy ["bogus"]).2 (by decide)).1
     testOracle testConfig _ rfl⟩

/-- C10: a requested metric name that is not a column of the result table
gets no key in the aggregate at all (lookup finds nothing, as opposed to a
key carrying an absent value): the aggregate is the same as if the name had
not been requested, so the metric contributes nothing to the overall
aggregate mean. -/
theorem c10_missing_column_omitted (tbl : ResultTable) (names : List String)
    (name : String) (_hreq : name ∈ names)
    (hcol : tbl.columns.contains name = false) :
    dictGet (build_aggregate tbl names) name = Option.none ∧
    build_aggregate tbl names
      = build_aggregate tbl (names.filter (fun n => n != name)) ∧
    batch_overall (build_aggregate tbl names)
      = batch_overall
        (build_aggregate tbl (names.filter (fun n => n != name))) := by
  refine ⟨?_, ?_, ?_⟩
  · exact build_aggregate_loop_get_none tbl names name hcol [] rfl
  · exact build_aggregate_loop_skip tbl names name hcol []
  · exact congrArg batch_overall (build_aggregate_loop_skip tbl names name hcol [])

/-- Witness for C10: requesting `"bogus"` (not a column of `testTable`)
leaves no `"bogus"` key and does not change the aggregate. -/
theorem c10_missing_column_omitted_witness :
    ("bogus" ∈ ["bogus", "faithfulness"] ∧
      testTable.columns.contains "bogus" = false) ∧
    (dictGet (build_aggregate testTable ["bogus", "faithfulness"]) "bogus"
        = Option.none ∧
      build_aggregate testTable ["bogus", "faithfulness"]
        = build_aggregate testTable
          (["bogus", "faithfulness"].filter (fun n => n != "bogus")) ∧
      batch_overall (build_aggregate testTable ["bogus", "faithfulness"])
        = batch_overall (build_aggregate testTable
          (["bogus", "faithfulness"].filter (fun n => n != "bogus")))) :=
  ⟨⟨by decide, by decide⟩,
   c10_missing_column_omitted testTable ["bogus", "faithfulness"] "bogus"
     (by decide) (by decide)⟩

/-- C6: for a batch of N samples with 1 ≤ N ≤ 100, provided at least one
requested metric is known and the external library returns one result row
per sample (the library's contract), the endpoint answers 200 with
`total_samples = N` and a `results` list of length N. -/
theorem c6_batch_counts (oracle : EvalOracle) (c : Config)
    (req : BatchEvaluationRequest)
    (h1 : 1 ≤ req.samples.length) (h2 : req.samples.length ≤ 100)
    (hm : (get_metrics req.metrics (get_llm c)).isEmpty = false)
    (hrows : (oracle (req.samples.map toSingleTurn)
        (get_metrics req.metrics (get_llm c))).records.length
      = req.samples.length) :
    ∃ body, (evaluate_batch oracle c req).1 = HTTPResponse.ok body ∧
      body.total_samples = req.samples.length ∧
      body.results.length = req.samples.length := by
  have h100 : ¬ req.samples.length > 100 := by omega
  have h0 : ¬ req.samples.length = 0 := by omega
  have hrun : run_evaluation_sync oracle c req.samples req.metrics
      = Except.ok
        { scores := (oracle (req.samples.map toSingleTurn)
            (get_metrics req.metrics (get_llm c))).records.map clean_dict
          aggregate := build_aggregate
            (oracle (req.samples.map toSingleTurn)
              (get_metrics req.metrics (get_llm c))) req.metrics } :=
    (run_evaluation_sync_ok_iff _ _ _ _ _).mpr ⟨hm, rfl⟩
  have hfst : (evaluate_batch oracle c req).1
      = HTTPResponse.ok
        { results := (oracle (req.samples.map toSingleTurn)
            (get_metrics req.metrics (get_llm c))).records.map clean_dict
          aggregate := dictSet
            (build_aggregate (oracle (req.samples.map toSingleTurn)
              (get_metrics req.metrics (get_llm c))) req.metrics) "overall"
            (batch_overall
              (build_aggregate (oracle (req.samples.map toSingleTurn)
                (get_metrics req.metrics (get_llm c))) req.metrics))
          total_samples := req.samples.length } := by
    simp only [evaluate_batch]
    rw [if_neg h100, if_neg h0, hrun]
  exact ⟨_, hfst, rfl, by simpa using hrows⟩

/-- Witness for C6: a one-sample batch against `testOracle` reports
`total_samples = 1` and one result. -/
theorem c6_batch_counts_witness :
    1 ≤ testBatchReq.samples.length ∧
    testBatchReq.samples.length ≤ 100 ∧
    (get_metrics testBatchReq.metrics (get_llm testConfig)).isEmpty = false ∧
    (testOracle (testBatchReq.samples.map toSingleTurn)
        (get_metrics testBatchReq.metrics (get_llm testConfig))).records.length
      = testBatchReq.samples.length ∧
    (∃ body, (evaluate_batch testOracle testConfig testBatchReq).1
        = HTTPResponse.ok body ∧
      body.total_samples = testBatchReq.samples.length ∧
      body.results.length = testBatchReq.samples.length) :=
  ⟨by decide, by decide, by decide, by decide,
   c6_batch_counts testOracle testConfig testBatchReq
     (by decide) (by decide) (by decide) (by decide)⟩

/-- C1: for a single evaluation whose response metric mapping carries, at
every requested key, either an absent value or a finite number (which the
cleaning step guarantees for real score columns), the returned
`overall_score` is the arithmetic mean of the returned metric values
restricted to the requested metric set, ignoring absent values, and absent
when all of them are absent. -/
theorem c1_single_overall_is_mean (oracle : EvalOracle) (c : Config)
    (req : SingleEvaluationRequest) (body : EvaluationResult)
    (hok : evaluate_single oracle c req = HTTPResponse.ok body)
    (hvals : ∀ kv ∈ body.metrics, req.metrics.contains kv.1 = true →
      kv.2 = PyVal.none ∨ (asFiniteNum kv.2).isSome = true) :
    body.overall_score = specSingleOverall body.metrics req.metrics := by
  simp only [evaluate_single] at hok
  split at hok
  next e heq => exact HTTPResponse.noConfusion hok
  next result heq =>
    injection hok with hok
    subst hok
    exact single_overall_core _ req.metrics hvals

/-- Witness for C1: one requested metric with value 1/2 gives
`overall_score = 1/2`, matching the spec-side mean. -/
theorem c1_single_overall_is_mean_witness :
    evaluate_single testOracle testConfig testSingleReq
      = HTTPResponse.ok c1Body ∧
    (∀ kv ∈ c1Body.metrics, testSingleReq.metrics.contains kv.1 = true →
      kv.2 = PyVal.none ∨ (asFiniteNum kv.2).isSome = true) ∧
    c1Body.overall_score = specSingleOverall c1Body.metrics testSingleReq.metrics := by
  have hok : evaluate_single testOracle testConfig testSingleReq
      = HTTPResponse.ok c1Body := by
    simp [evaluate_single, run_evaluation_sync, testOracle, testConfig,
      testSingleReq, testTable, testSample, get_llm, get_metrics,
      AVAILABLE_METRICS, toSingleTurn, clean_dict, clean_float,
      PyVal.isNumeric, PyFloat.isNanOrInf, PyVal.toRat, c1Body, List.isEmpty]
  exact ⟨hok, by decide,
    c1_single_overall_is_mean testOracle testConfig testSingleReq c1Body hok
      (by decide)⟩

/-- C2: for a successful batch evaluation, the returned aggregate's
`"overall"` entry is present and equals the arithmetic mean of the
non-absent per-metric aggregate means, and is the absence marker when
every per-metric aggregate is absent. -/
theorem c2_batch_overall_is_mean (oracle : EvalOracle) (c : Config)
    (req : BatchEvaluationRequest) (r : RunResult)
    (body : BatchEvaluationResult)
    (hrun : run_evaluation_sync oracle c req.samples req.metrics
      = Except.ok r)
    (hok : (evaluate_batch oracle c req).1 = HTTPResponse.ok body) :
    dictGet body.aggregate "overall"
      = Option.some (specBatchOverall r.aggregate) := by
  have hclean : ∀ kv ∈ r.aggregate, IsCleanAgg kv.2 := by
    rcases (run_evaluation_sync_ok_iff oracle c req.samples req.metrics r).mp
      hrun with ⟨-, hr⟩
    rw [hr]
    exact build_aggregate_clean _ _
  by_cases h100 : req.samples.length > 100
  · have herr : (evaluate_batch oracle c req).1
        = HTTPResponse.error 400 "Maximum 100 samples per batch" := by
      simp only [evaluate_batch]
      rw [if_pos h100]
    rw [herr] at hok
    exact HTTPResponse.noConfusion hok
  · by_cases h0 : req.samples.length = 0
    · have herr : (evaluate_batch oracle c req).1
          = HTTPResponse.error 400 "At least one sample required" := by
        simp only [evaluate_batch]
        rw [if_neg h100, if_pos h0]
      rw [herr] at hok
      exact HTTPResponse.noConfusion hok
    · have hfst : (evaluate_batch oracle c req).1
          = HTTPResponse.ok
            { results := r.scores
              aggregate := dictSet r.aggregate "overall"
                (batch_overall r.aggregate)
              total_samples := req.samples.length } := by
        simp only [evaluate_batch]
        rw [if_neg h100, if_neg h0, hrun]
      rw [hfst] at hok
      injection hok with hok
      subst hok
      show dictGet (dictSet r.aggregate "overall" (batch_overall r.aggregate))
        "overall" = Option.some (specBatchOverall r.aggregate)
      rw [dictGet_dictSet_self, batch_overall_eq_spec r.aggregate hclean]

/-- Witness for C2: the one-metric batch run yields an aggregate whose
`"overall"` entry is the mean 1/2 of the single per-metric mean. -/
theorem c2_batch_overall_is_mean_witness :
    run_evaluation_sync testOracle testConfig testBatchReq.samples
        testBatchReq.metrics = Except.ok c2Run ∧
    (evaluate_batch testOracle testConfig testBatchReq).1
        = HTTPResponse.ok c2Body ∧
    dictGet c2Body.aggregate "overall"
        = Option.some (specBatchOverall c2Run.aggregate) := by
  have hrun : run_evaluation_sync testOracle testConfig testBatchReq.samples
      testBatchReq.metrics = Except.ok c2Run := by
    simp [run_evaluation_sync, testOracle, testConfig, testBatchReq,
      testSample, testTable, get_llm, get_metrics, AVAILABLE_METRICS,
      toSingleTurn, clean_dict, clean_float, build_aggregate, agg_step,
      dictSet, PyVal.isNumeric, PyFloat.isNanOrInf, c2Run]
  have hok : (evaluate_batch testOracle testConfig testBatchReq).1
      = HTTPResponse.ok c2Body := by
    simp [evaluate_batch, run_evaluation_sync, testOracle, testConfig,
      testBatchReq, testSample, testTable, get_llm, get_metrics,
      AVAILABLE_METRICS, toSingleTurn, clean_dict, clean_float,
      build_aggregate, agg_step, dictSet, batch_overall, PyVal.isNumeric,
      PyFloat.isNanOrInf, PyVal.toRat, c2Body, List.isEmpty]
  exact ⟨hrun, hok,
    c2_batch_overall_is_mean testOracle testConfig testBatchReq c2Run c2Body
      hrun hok⟩

end RagasService
